import Mathlib

/-!
# Verification of the kratos application lifecycle coordinator (`app.go`)

Shallow embedding of `src/app.go`: the `App` lifecycle manager with its
`New`, `Run`, `Stop` operations and the `serviceInstance` constructor.

External collaborators (transport servers, the registry, the UUID
generator) are modelled by the outcomes of the single call the coordinator
makes to each of them: a `Server` carries the return value of its
`Start()`, `Stop()` and `Endpoint()` calls, a `Registry` the return values
of its `Register`/`Deregister` calls, and `New` takes the outcome of
`uuid.NewUUID()` as a parameter.

The concurrent phase of `Run` (the `errgroup` with one stop-task and one
start-task per server plus the signal-watcher goroutine, lines 72-99 of
`app.go`) is embedded as a small-step semantics over `ExecState`: an event
list (the schedule) decides the order in which tasks complete, signals
arrive and the watcher observes cancellation; `step` enforces the blocking
structure of the code (a stop-task completes only after the group context
is done, the watcher exits only after it is done). `errgroup`'s fail-fast
behaviour (`errOnce`: the first task to return a non-nil error is
remembered and cancels the group context) is the `record` function.
-/

/-- Go `error` values as seen by this code: `context.Canceled` is the one
error `Run` compares against (via `errors.Is`); every other error is opaque
and identified by a string. `Option GoError` plays the role of a Go
`error` result, with `none` for `nil`. -/
inductive GoError where
  | canceled
  | err (msg : String)
deriving DecidableEq, Repr

/-- OS signals (`os.Signal`); the three named ones appear in `New`'s
default signal set, `other` stands for any further signal value. -/
inductive Signal where
  | SIGTERM
  | SIGQUIT
  | SIGINT
  | other (n : Nat)
deriving DecidableEq, Repr

/-- A `transport.Server` handle, modelled by the outcomes of the three
calls `Run`/`serviceInstance` make on it: `startResult` is what `Start()`
returns, `stopResult` what `Stop()` returns, and `endpointRes` is
`some e` when `Endpoint()` returns `(e, nil)` and `none` when it returns
an error. -/
structure Server where
  startResult : Option GoError
  stopResult : Option GoError
  endpointRes : Option String
deriving DecidableEq, Repr

/-- `registry.ServiceInstance` (the record shape used by `app.go`). -/
structure ServiceInstance where
  ID : String
  Name : String
  Version : String
  Metadata : List (String × String)
  Endpoints : List String
deriving DecidableEq, Repr

/-- A `registry.Registry` handle, modelled by the outcomes of the one
`Register` call `Run` makes and the `Deregister` call `Stop` makes. -/
structure Registry where
  registerResult : Option GoError
  deregisterResult : Option GoError
deriving DecidableEq, Repr

/-- The `options` struct consumed by `app.go` (fields as read by `New`,
`Run`, `Stop` and `serviceInstance`; the logger and the parent context are
not modelled). -/
structure Options where
  id : String
  name : String
  version : String
  metadata : List (String × String)
  endpoints : List String
  servers : List Server
  registry : Option Registry
  sigs : List Signal
deriving DecidableEq, Repr

/-- The `App` struct: its options, its `ServiceInstance` built at `New`
time (the Go field `instance`; named `inst` here because `instance` is a
Lean keyword), and the state of its cancellation token (`ctx`/`cancel` from
`context.WithCancel`): `canceled = true` once `cancel` has been invoked.
The token is single-shot: cancelling an already-cancelled context is a
no-op, which the `Bool` flag captures. -/
structure App where
  opts : Options
  inst : ServiceInstance
  canceled : Bool
deriving DecidableEq, Repr

/-- `serviceInstance` (app.go lines 119-134): if no explicit endpoint list
was configured, query every server in order and append the endpoints of
those whose `Endpoint()` call succeeded; then build the record. The
`foldl` is the literal `for` loop with `append`. -/
def serviceInstance (o : Options) : ServiceInstance :=
  let endpoints :=
    if o.endpoints.length = 0 then
      o.servers.foldl
        (fun acc srv =>
          match srv.endpointRes with
          | some e => acc ++ [e]
          | none => acc)
        o.endpoints
    else o.endpoints
  { ID := o.id
    Name := o.name
    Version := o.version
    Metadata := o.metadata
    Endpoints := endpoints }

/-- The default signal set installed by `New` (app.go line 32). -/
def defaultSigs : List Signal := [Signal.SIGTERM, Signal.SIGQUIT, Signal.SIGINT]

/-- The options literal at the top of `New` (app.go lines 29-33): every
field not named there has its Go zero value. -/
def initialOptions : Options :=
  { id := ""
    name := ""
    version := ""
    metadata := []
    endpoints := []
    servers := []
    registry := none
    sigs := defaultSigs }

/-- Lines 34-36 of `New`: set `id` from `uuid.NewUUID()` only when that
call succeeded (`uuidRes = some s`); on failure the error is dropped and
`id` keeps its previous (zero) value. -/
def applyUUID (uuidRes : Option String) (o : Options) : Options :=
  match uuidRes with
  | some s => { o with id := s }
  | none => o

/-- `New` (app.go lines 28-48): build the default options, try the UUID
generator, apply the caller's options in order, create the cancellation
token (initially live) and construct the `ServiceInstance`. `New` is
total: it never returns an error. -/
def New (uuidRes : Option String) (opts : List (Options → Options)) : App :=
  let o := opts.foldl (fun acc f => f acc) (applyUUID uuidRes initialOptions)
  { opts := o
    inst := serviceInstance o
    canceled := false }

/-- `Stop` (app.go lines 107-117): if a registry is configured, call
`Deregister`; on failure return that error without touching the
cancellation token. Otherwise fire the token and return `nil`. Returns
the new `App` state (the token flag) together with the Go return value. -/
def Stop (a : App) : App × Option GoError :=
  match a.opts.registry with
  | some r =>
    match r.deregisterResult with
    | some e => (a, some e)
    | none => ({ a with canceled := true }, none)
  | none => ({ a with canceled := true }, none)

/-- `n` successive calls of `Stop`, keeping only the state. -/
def stopN : Nat → App → App
  | 0, a => a
  | n + 1, a => stopN n (Stop a).1

/-- Events the signal-watcher goroutine (app.go lines 90-99) can observe:
a configured OS signal arriving on the channel, or the group context
becoming done (which happens exactly when the cancellation token fires). -/
inductive WEvent where
  | sig
  | ctxdone
deriving DecidableEq, Repr

/-- The signal-watcher loop (app.go lines 90-99) run against a finite
observation sequence: on `ctxdone` it returns `ctx.Err()` (the token's
cancellation error, `context.Canceled`); on `sig` it calls `a.Stop()`,
discards the returned error, and loops. `none` means the sequence ended
with the watcher still waiting. -/
def watcherLoop (a : App) : List WEvent → Option (App × GoError)
  | [] => none
  | WEvent.ctxdone :: _ => some (a, GoError.canceled)
  | WEvent.sig :: rest => watcherLoop (Stop a).1 rest

/-- State of the concurrent phase of `Run` (app.go lines 72-99): the
`App` (whose token the watcher's `Stop` calls may fire), per-server flags
recording whether each start-task and stop-task has completed, the
`errgroup`'s derived context (`gcanceled`, cancelled by the first error),
the first error remembered by the group's `errOnce`, and whether the
watcher goroutine has returned. -/
structure ExecState where
  app : App
  started : List Bool
  stopped : List Bool
  gcanceled : Bool
  firstErr : Option GoError
  watcherDone : Bool
deriving DecidableEq, Repr

/-- The group context (`errgroup.WithContext(a.ctx)`) is done when either
the group itself cancelled it (first error) or the App's own token fired
(`a.cancel` cancels the parent of the group context). -/
def ctxDone (s : ExecState) : Bool := s.gcanceled || s.app.canceled

/-- `errgroup`'s handling of a task's return value: a `nil` result is
ignored; the first non-nil result is remembered and cancels the group
context (`errOnce.Do`); later non-nil results are discarded. -/
def record (res : Option GoError) (s : ExecState) : ExecState :=
  match res with
  | none => s
  | some e =>
    match s.firstErr with
    | none => { s with firstErr := some e, gcanceled := true }
    | some _ => s

/-- Scheduler events for the concurrent phase: completion of server `i`'s
start-task or stop-task, a signal arrival handled by the watcher, or the
watcher observing the done group context and exiting. -/
inductive Ev where
  | startFin (i : Nat)
  | stopFin (i : Nat)
  | sig
  | wexit
deriving DecidableEq, Repr

/-- One scheduler step; `none` when the event is not enabled. A start-task
may complete at any time (with its server's `Start()` result); a stop-task
completes only after the group context is done (it blocks on
`<-ctx.Done()`) and reports its server's `Stop()` result; a signal makes
the still-running watcher call `a.Stop()` and discard the error; `wexit`
is the watcher observing `<-ctx.Done()` and returning `ctx.Err()`
(`context.Canceled`), which the group records like any other result. -/
def step (s : ExecState) : Ev → Option ExecState
  | Ev.startFin i =>
    match s.app.opts.servers.get? i, s.started.get? i with
    | some srv, some false =>
      some (record srv.startResult { s with started := s.started.set i true })
    | _, _ => none
  | Ev.stopFin i =>
    match s.app.opts.servers.get? i, s.stopped.get? i with
    | some srv, some false =>
      if ctxDone s then
        some (record srv.stopResult { s with stopped := s.stopped.set i true })
      else none
    | _, _ => none
  | Ev.sig =>
    if s.watcherDone then none
    else some { s with app := (Stop s.app).1 }
  | Ev.wexit =>
    if s.watcherDone then none
    else if ctxDone s then
      some (record (some GoError.canceled) { s with watcherDone := true })
    else none

/-- Run a schedule from a state; `none` if some event was not enabled. -/
def execSteps (s : ExecState) : List Ev → Option ExecState
  | [] => some s
  | e :: rest =>
    match step s e with
    | some s' => execSteps s' rest
    | none => none

/-- The state at the start of the concurrent phase: no task has completed,
the group context is live, no error recorded, watcher running. -/
def initState (a : App) : ExecState :=
  { app := a
    started := List.replicate a.opts.servers.length false
    stopped := List.replicate a.opts.servers.length false
    gcanceled := false
    firstErr := none
    watcherDone := false }

/-- `g.Wait()` returns once every spawned goroutine has returned. -/
def terminal (s : ExecState) : Bool :=
  s.started.all (fun b => b) && s.stopped.all (fun b => b) && s.watcherDone

/-- The final filter of `Run` (app.go lines 100-103): a `nil` or
`context.Canceled` result from `g.Wait()` yields `nil`; any other error is
returned as is. -/
def waitFilter (res : Option GoError) : Option GoError :=
  match res with
  | some e => if e = GoError.canceled then none else some e
  | none => none

/-- The tail of `Run` after a successful (or absent) registration: run the
schedule from the initial state; if it is a complete execution (every
goroutine returned, so `g.Wait()` unblocks), `Run` returns
`waitFilter` of the first recorded error, together with the final state.
`none` means the schedule does not describe a completed `Run`. -/
def runWait (a : App) (evs : List Ev) : Option (Option GoError × ExecState) :=
  match execSteps (initState a) evs with
  | some s => if terminal s then some (waitFilter s.firstErr, s) else none
  | none => none

/-- `Run` (app.go lines 66-104): spawn the per-server tasks, then, if a
registry is configured, call `Register(a.instance)`; on failure return
that error immediately — without firing the cancellation token and without
waiting for the already-spawned tasks (the returned state is the initial
one: `Run` itself performed no cancellation). Otherwise spawn the watcher
and block on `g.Wait()`, filtering `context.Canceled`. -/
def Run (a : App) (evs : List Ev) : Option (Option GoError × ExecState) :=
  match a.opts.registry with
  | some r =>
    match r.registerResult with
    | some e => some (some e, initState a)
    | none => runWait a evs
  | none => runWait a evs

/-! ## Helper lemmas -/

/-- Writing `true` into the `canceled` field of an already-cancelled `App`
changes nothing: the cancellation token is single-shot. -/
theorem App.set_canceled_eq (a : App) (h : a.canceled = true) :
    { a with canceled := true } = a := by
  cases a with
  | mk o i c => cases h; rfl

/-- `Stop` on an `App` whose registry (if any) deregisters successfully:
fires the token and returns `nil`. -/
theorem Stop_ok (a : App)
    (hd : ∀ r, a.opts.registry = some r → r.deregisterResult = none) :
    Stop a = ({ a with canceled := true }, none) := by
  match hr : a.opts.registry with
  | none => simp [Stop, hr]
  | some r => simp [Stop, hr, hd r hr]

/-! ## C1 -/

/-- C1: for every `App` with a configured registry, if the `Deregister`
call inside `Stop` fails then `Stop` returns that failure and the
cancellation token is not fired (the whole `App` state is unchanged); if
no registry is configured or `Deregister` succeeds, `Stop` fires the
token and returns `nil`. -/
theorem stop_deregister_failure_keeps_token (a : App) :
    (∀ r e, a.opts.registry = some r → r.deregisterResult = some e →
      Stop a = (a, some e)) ∧
    ((∀ r, a.opts.registry = some r → r.deregisterResult = none) →
      Stop a = ({ a with canceled := true }, none)) := by
  refine ⟨?_, Stop_ok a⟩
  intro r e hr he
  simp [Stop, hr, he]

/-- A concrete `App` whose registry fails to deregister. -/
def c1App : App :=
  { opts :=
      { id := "id-1"
        name := "svc1"
        version := "v1"
        metadata := []
        endpoints := []
        servers := []
        registry := some { registerResult := none, deregisterResult := some (GoError.err "dereg down") }
        sigs := defaultSigs }
    inst := { ID := "id-1", Name := "svc1", Version := "v1", Metadata := [], Endpoints := [] }
    canceled := false }

/-- Witness for C1 at `c1App`: `Stop` surfaces the deregistration error
and leaves the token unfired. -/
theorem stop_deregister_failure_keeps_token_witness :
    Stop c1App = (c1App, some (GoError.err "dereg down")) :=
  (stop_deregister_failure_keeps_token c1App).1 _ _ rfl rfl

/-! ## C5 -/

/-- C5: on an `App` whose token has already fired (and whose registry, if
any, deregisters successfully), any number of further `Stop` calls leaves
the token — indeed the whole state — unchanged, and the next call still
returns `nil`. -/
theorem stop_idempotent_after_cancel (a : App) (n : Nat)
    (hc : a.canceled = true)
    (hd : ∀ r, a.opts.registry = some r → r.deregisterResult = none) :
    stopN n a = a ∧ Stop (stopN n a) = (a, none) := by
  have hstop : Stop a = (a, none) := by
    rw [Stop_ok a hd, App.set_canceled_eq a hc]
  have hn : stopN n a = a := by
    induction n with
    | zero => rfl
    | succ m ih => simp [stopN, hstop, ih]
  refine ⟨hn, ?_⟩
  rw [hn]
  exact hstop

/-- A concrete already-cancelled `App` with no registry. -/
def c5App : App :=
  { opts :=
      { id := "id-5"
        name := "svc5"
        version := "v5"
        metadata := []
        endpoints := []
        servers := []
        registry := none
        sigs := defaultSigs }
    inst := { ID := "id-5", Name := "svc5", Version := "v5", Metadata := [], Endpoints := [] }
    canceled := true }

/-- Witness for C5 at `c5App` with three extra `Stop` calls. -/
theorem stop_idempotent_after_cancel_witness :
    stopN 3 c5App = c5App ∧ Stop (stopN 3 c5App) = (c5App, none) :=
  stop_idempotent_after_cancel c5App 3 rfl (fun _ h => nomatch h)

/-! ## C3 -/

/-- The endpoint-collecting loop of `serviceInstance`, started from any
accumulator, appends exactly the successful `Endpoint()` results in
server order. -/
theorem endpoints_foldl_eq (servers : List Server) (acc : List String) :
    servers.foldl
      (fun acc srv =>
        match srv.endpointRes with
        | some e => acc ++ [e]
        | none => acc)
      acc
      = acc ++ servers.filterMap Server.endpointRes := by
  induction servers generalizing acc with
  | nil => simp
  | cons s rest ih =>
    cases h : s.endpointRes with
    | none => simp [List.foldl_cons, h, ih, List.filterMap_cons]
    | some e => simp [List.foldl_cons, h, ih, List.filterMap_cons]

/-- C3: with an empty explicit endpoint list, the instance built by
`serviceInstance` carries, in server-configuration order, exactly the
endpoints of the servers whose `Endpoint()` call succeeded (failures
silently omitted); with a non-empty explicit list, that list is used
as-is and no server result enters. -/
theorem serviceInstance_endpoints (o : Options) :
    (o.endpoints = [] →
      (serviceInstance o).Endpoints = o.servers.filterMap Server.endpointRes) ∧
    (o.endpoints ≠ [] →
      (serviceInstance o).Endpoints = o.endpoints) := by
  constructor
  · intro h
    simp [serviceInstance, h, endpoints_foldl_eq]
  · intro h
    have hlen : o.endpoints.length ≠ 0 := by
      simpa [List.length_eq_zero] using h
    simp [serviceInstance, hlen]

/-- Concrete options: no explicit endpoints, three servers of which the
middle one fails its `Endpoint()` call. -/
def c3Opts : Options :=
  { id := "id-3"
    name := "svc3"
    version := "v3"
    metadata := []
    endpoints := []
    servers :=
      [ { startResult := none, stopResult := none, endpointRes := some "http://a:8000" }
      , { startResult := none, stopResult := none, endpointRes := none }
      , { startResult := none, stopResult := none, endpointRes := some "grpc://b:9000" } ]
    registry := none
    sigs := defaultSigs }

/-- Witness for C3 at `c3Opts`: the derived endpoint list is the ordered
list of successful lookups. -/
theorem serviceInstance_endpoints_witness :
    (serviceInstance c3Opts).Endpoints = List.filterMap Server.endpointRes c3Opts.servers :=
  (serviceInstance_endpoints c3Opts).1 rfl

/-! ## C9 and C10 -/

/-- Applying a list of option functions that all preserve a projection
`g` preserves `g`. -/
theorem foldl_opts_preserve {α : Type} (g : Options → α)
    (opts : List (Options → Options)) (o : Options)
    (h : ∀ f ∈ opts, ∀ o', g (f o') = g o') :
    g (opts.foldl (fun acc f => f acc) o) = g o := by
  induction opts generalizing o with
  | nil => rfl
  | cons f rest ih =>
    rw [List.foldl_cons, ih _ (fun f' hf' => h f' (List.mem_cons_of_mem f hf')),
      h f (List.mem_cons_self f rest) o]

/-- C9: when no supplied option touches the signal set, the `App` built
by `New` watches exactly the default set: SIGTERM, SIGQUIT, SIGINT. -/
theorem new_default_signal_set (uuidRes : Option String)
    (opts : List (Options → Options))
    (h : ∀ f ∈ opts, ∀ o, (f o).sigs = o.sigs) :
    (New uuidRes opts).opts.sigs = [Signal.SIGTERM, Signal.SIGQUIT, Signal.SIGINT] := by
  show (opts.foldl (fun acc f => f acc) (applyUUID uuidRes initialOptions)).sigs = _
  rw [foldl_opts_preserve Options.sigs opts _ h]
  cases uuidRes <;> rfl

/-- A concrete option that sets only the display name. -/
def c9Opt : Options → Options := fun o => { o with name := "payments" }

/-- Witness for C9: `New` with a name-only option keeps the default
signal set. -/
theorem new_default_signal_set_witness :
    (New (some "3f1c0d2e-uuid") [c9Opt]).opts.sigs
      = [Signal.SIGTERM, Signal.SIGQUIT, Signal.SIGINT] :=
  new_default_signal_set (some "3f1c0d2e-uuid") [c9Opt]
    (by
      intro f hf o
      rw [List.mem_singleton] at hf
      subst hf
      rfl)

/-- C10: when the UUID generator fails and no supplied option touches the
id, `New` still succeeds (it is a total function) and the constructed
`App` carries the empty string as its id, both in its options and in its
`ServiceInstance`. -/
theorem new_uuid_failure_empty_id (opts : List (Options → Options))
    (h : ∀ f ∈ opts, ∀ o, (f o).id = o.id) :
    (New none opts).opts.id = "" ∧ (New none opts).inst.ID = "" := by
  have hid : (New none opts).opts.id = "" := by
    show (opts.foldl (fun acc f => f acc) (applyUUID none initialOptions)).id = ""
    rw [foldl_opts_preserve Options.id opts _ h]
    rfl
  exact ⟨hid, hid⟩

/-- A concrete option that sets only the version. -/
def c10Opt : Options → Options := fun o => { o with version := "2.0.1" }

/-- Witness for C10: `New` with a failed UUID generation and a
version-only option yields the empty id. -/
theorem new_uuid_failure_empty_id_witness :
    (New none [c10Opt]).opts.id = "" ∧ (New none [c10Opt]).inst.ID = "" :=
  new_uuid_failure_empty_id [c10Opt]
    (by
      intro f hf o
      rw [List.mem_singleton] at hf
      subst hf
      rfl)

/-! ## C8 -/

/-- C8: the signal-watcher loop tolerates any number `n` of signal
arrivals: each one invokes `Stop` with its returned error discarded
(after `n` signals the `App` state is `stopN n a`) and the loop keeps
waiting; when the cancellation token fires (the group context becomes
done) the loop exits reporting `context.Canceled` as its outcome. -/
theorem watcher_signals_then_cancel (a : App) (n : Nat) :
    watcherLoop a (List.replicate n WEvent.sig ++ [WEvent.ctxdone])
      = some (stopN n a, GoError.canceled) := by
  induction n generalizing a with
  | zero => rfl
  | succ m ih =>
    rw [List.replicate_succ, List.cons_append]
    show watcherLoop (Stop a).1 _ = _
    rw [ih]
    rfl

/-! ## Inversion and invariant lemmas for the `Run` semantics -/

/-- Inverting `runWait`: a returned result comes from a completed
execution of the schedule, and is the `waitFilter` of the first recorded
error. -/
theorem runWait_inv {a : App} {evs : List Ev} {res : Option GoError} {s : ExecState}
    (h : runWait a evs = some (res, s)) :
    execSteps (initState a) evs = some s ∧ terminal s = true
      ∧ res = waitFilter s.firstErr := by
  unfold runWait at h
  split at h
  · rename_i s1 hx
    split at h
    · rename_i ht
      injection h with h2
      injection h2 with ha hb
      subst hb
      exact ⟨hx, ht, ha.symm⟩
    · exact absurd h (by simp)
  · exact absurd h (by simp)

/-- Inverting `Run`: either registration failed (result is that error,
no step of the concurrent phase is reflected in the returned state, in
particular `Run` fired nothing), or the wait phase completed. -/
theorem Run_inv {a : App} {evs : List Ev} {res : Option GoError} {s : ExecState}
    (h : Run a evs = some (res, s)) :
    (∃ r e, a.opts.registry = some r ∧ r.registerResult = some e
        ∧ res = some e ∧ s = initState a)
    ∨ (execSteps (initState a) evs = some s ∧ terminal s = true
        ∧ res = waitFilter s.firstErr) := by
  cases hr : a.opts.registry with
  | none =>
    simp only [Run, hr] at h
    exact Or.inr (runWait_inv h)
  | some r =>
    cases hg : r.registerResult with
    | none =>
      simp only [Run, hr, hg] at h
      exact Or.inr (runWait_inv h)
    | some e =>
      simp only [Run, hr, hg, Option.some.injEq, Prod.mk.injEq] at h
      exact Or.inl ⟨r, e, rfl, hg, h.1.symm, h.2.symm⟩

/-- `record` preserves the invariant "an error has been recorded only if
the group context is cancelled". -/
theorem record_errInv {res : Option GoError} {s : ExecState}
    (hinv : s.firstErr = none ∨ s.gcanceled = true) :
    (record res s).firstErr = none ∨ (record res s).gcanceled = true := by
  cases res with
  | none => exact hinv
  | some e =>
    cases hf : s.firstErr with
    | none =>
      right
      simp [record, hf]
    | some e2 =>
      simp only [record, hf]
      rcases hinv with h1 | h1
      · rw [hf] at h1
        exact absurd h1 (by simp)
      · exact Or.inr h1

/-- Every step preserves "an error has been recorded only if the group
context is cancelled" (`errgroup` cancels its context on first error). -/
theorem step_errInv {s s' : ExecState} {e : Ev} (h : step s e = some s')
    (hinv : s.firstErr = none ∨ s.gcanceled = true) :
    s'.firstErr = none ∨ s'.gcanceled = true := by
  cases e with
  | startFin i =>
    simp only [step] at h
    split at h
    · injection h with h1
      subst h1
      exact record_errInv hinv
    · exact absurd h (by simp)
  | stopFin i =>
    simp only [step] at h
    split at h
    · split at h
      · injection h with h1
        subst h1
        exact record_errInv hinv
      · exact absurd h (by simp)
    · exact absurd h (by simp)
  | sig =>
    simp only [step] at h
    split at h
    · exact absurd h (by simp)
    · injection h with h1
      subst h1
      exact hinv
  | wexit =>
    simp only [step] at h
    split at h
    · exact absurd h (by simp)
    · split at h
      · injection h with h1
        subst h1
        exact record_errInv hinv
      · exact absurd h (by simp)

/-- The invariant holds at the end of any successful schedule started in
a state satisfying it. -/
theorem execSteps_errInv {evs : List Ev} {s s' : ExecState}
    (h : execSteps s evs = some s')
    (hinv : s.firstErr = none ∨ s.gcanceled = true) :
    s'.firstErr = none ∨ s'.gcanceled = true := by
  induction evs generalizing s with
  | nil =>
    simp only [execSteps, Option.some.injEq] at h
    subst h
    exact hinv
  | cons e rest ih =>
    simp only [execSteps] at h
    cases hstep : step s e with
    | none =>
      rw [hstep] at h
      exact absurd h (by simp)
    | some s1 =>
      rw [hstep] at h
      exact ih h (step_errInv hstep hinv)

/-- `record` never touches the `App` (the errgroup only stores the error
and cancels its context). -/
theorem record_app (res : Option GoError) (s : ExecState) :
    (record res s).app = s.app := by
  cases res with
  | none => rfl
  | some e => cases hf : s.firstErr <;> simp [record, hf]

/-- `Stop` never changes the `ServiceInstance` of the `App`. -/
theorem Stop_fst_inst (a : App) : (Stop a).1.inst = a.inst := by
  match hr : a.opts.registry with
  | none => simp [Stop, hr]
  | some r => cases hd : r.deregisterResult <;> simp [Stop, hr, hd]

/-- No step of the concurrent phase changes the `ServiceInstance`. -/
theorem step_app_inst {s s' : ExecState} {e : Ev} (h : step s e = some s') :
    s'.app.inst = s.app.inst := by
  cases e with
  | startFin i =>
    simp only [step] at h
    split at h
    · injection h with h1
      subst h1
      rw [record_app]
    · exact absurd h (by simp)
  | stopFin i =>
    simp only [step] at h
    split at h
    · split at h
      · injection h with h1
        subst h1
        rw [record_app]
      · exact absurd h (by simp)
    · exact absurd h (by simp)
  | sig =>
    simp only [step] at h
    split at h
    · exact absurd h (by simp)
    · injection h with h1
      subst h1
      exact Stop_fst_inst s.app
  | wexit =>
    simp only [step] at h
    split at h
    · exact absurd h (by simp)
    · split at h
      · injection h with h1
        subst h1
        rw [record_app]
      · exact absurd h (by simp)

/-- No schedule of the concurrent phase changes the `ServiceInstance`. -/
theorem execSteps_app_inst {evs : List Ev} {s s' : ExecState}
    (h : execSteps s evs = some s') :
    s'.app.inst = s.app.inst := by
  induction evs generalizing s with
  | nil =>
    simp only [execSteps, Option.some.injEq] at h
    subst h
    rfl
  | cons e rest ih =>
    simp only [execSteps] at h
    cases hstep : step s e with
    | none =>
      rw [hstep] at h
      exact absurd h (by simp)
    | some s1 =>
      rw [hstep] at h
      rw [ih h, step_app_inst hstep]

/-! ## C2 -/

/-- C2: if the configured registry's `Register` call fails during `Run`,
`Run` returns exactly that failure immediately; the returned state is the
initial one — in particular neither the cancellation token nor the group
context has been fired by `Run` on this path, so the already-spawned
server tasks are not cancelled by `Run`. -/
theorem run_register_failure_no_cancel (a : App) (evs : List Ev)
    (r : Registry) (e : GoError)
    (hr : a.opts.registry = some r) (he : r.registerResult = some e) :
    Run a evs = some (some e, initState a)
      ∧ (initState a).app.canceled = a.canceled
      ∧ (initState a).gcanceled = false := by
  refine ⟨?_, rfl, rfl⟩
  simp [Run, hr, he]

/-- A concrete `App` whose registry fails to register. -/
def c2App : App :=
  { opts :=
      { id := "id-2"
        name := "svc2"
        version := "v2"
        metadata := []
        endpoints := []
        servers := []
        registry := some { registerResult := some (GoError.err "reg down"), deregisterResult := none }
        sigs := defaultSigs }
    inst := { ID := "id-2", Name := "svc2", Version := "v2", Metadata := [], Endpoints := [] }
    canceled := false }

/-- Witness for C2 at `c2App`. -/
theorem run_register_failure_no_cancel_witness :
    Run c2App [] = some (some (GoError.err "reg down"), initState c2App)
      ∧ (initState c2App).app.canceled = c2App.canceled
      ∧ (initState c2App).gcanceled = false :=
  run_register_failure_no_cancel c2App [] _ (GoError.err "reg down") rfl rfl

/-! ## C4 -/

/-- C4: in every `Run` invocation that reaches the final wait (the
registry, if any, registered successfully), a joined result that is `nil`
or `context.Canceled` makes `Run` return `nil`; `Run` returns a non-nil
error exactly when the joined result is a real failure distinct from
cancellation, and then it returns that failure. -/
theorem run_wait_cancellation_filtered (a : App) (evs : List Ev)
    (res : Option GoError) (s : ExecState)
    (hreg : ∀ r, a.opts.registry = some r → r.registerResult = none)
    (hrun : Run a evs = some (res, s)) :
    ((s.firstErr = none ∨ s.firstErr = some GoError.canceled) → res = none)
      ∧ ∀ e, s.firstErr = some e → e ≠ GoError.canceled → res = some e := by
  have hres : res = waitFilter s.firstErr := by
    rcases Run_inv hrun with ⟨r, e, hr, hg, -, -⟩ | ⟨-, -, h3⟩
    · exact absurd (hreg r hr) (by simp [hg])
    · exact h3
  subst hres
  constructor
  · rintro (hf | hf) <;> simp [waitFilter, hf]
  · intro e hf hne
    simp [waitFilter, hf, hne]

/-- A concrete `App` with one graceful server and no registry. -/
def c4App : App :=
  { opts :=
      { id := "id-4"
        name := "svc4"
        version := "v4"
        metadata := []
        endpoints := []
        servers := [{ startResult := none, stopResult := none, endpointRes := none }]
        registry := none
        sigs := defaultSigs }
    inst := { ID := "id-4", Name := "svc4", Version := "v4", Metadata := [], Endpoints := [] }
    canceled := false }

/-- A graceful-shutdown schedule for `c4App`: a signal fires the token,
both server tasks finish cleanly, then the watcher exits. -/
def c4Evs : List Ev := [Ev.sig, Ev.startFin 0, Ev.stopFin 0, Ev.wexit]

/-- The final state of that schedule: the only recorded error is the
watcher's `context.Canceled`. -/
def c4Final : ExecState :=
  { app := { c4App with canceled := true }
    started := [true]
    stopped := [true]
    gcanceled := true
    firstErr := some GoError.canceled
    watcherDone := true }

/-- Witness for C4: on the graceful schedule the joined result is
`context.Canceled` and `Run` returns `nil`. -/
theorem run_wait_cancellation_filtered_witness : (none : Option GoError) = none :=
  (run_wait_cancellation_filtered c4App c4Evs none c4Final
      (fun _ h => nomatch h) (by decide)).1
    (Or.inr (by decide))

/-! ## C6 -/

/-- C6 as stated is refuted by a graceful-shutdown race: in `c6App` the
single server's stop operation fails with the real error `"stop boom"`
(the only failure of the execution, hence the first), but on the schedule
`c6Evs` — signal fires the token, the watcher exits first (recording
`context.Canceled` as the group's first error), then the tasks finish —
`Run` returns `nil`, not that error. -/
def c6App : App :=
  { opts :=
      { id := "id-6"
        name := "svc6"
        version := "v6"
        metadata := []
        endpoints := []
        servers := [{ startResult := none, stopResult := some (GoError.err "stop boom"), endpointRes := none }]
        registry := none
        sigs := defaultSigs }
    inst := { ID := "id-6", Name := "svc6", Version := "v6", Metadata := [], Endpoints := [] }
    canceled := false }

/-- The schedule on which the watcher's cancellation outcome is recorded
before the failing stop-task completes. -/
def c6Evs : List Ev := [Ev.sig, Ev.wexit, Ev.startFin 0, Ev.stopFin 0]

/-- C6 counterexample: the server's stop fails with the real error
`"stop boom"`, the stop-task did run to completion during `Run`
(`stopped = [true]`), yet `Run` returns `nil` instead of that error —
the claim "Run's returned error equals E" fails. -/
theorem run_first_failure_counterexample :
    c6App.opts.servers.map Server.stopResult = [some (GoError.err "stop boom")]
      ∧ (Run c6App c6Evs).map (fun p => p.2.stopped) = some [true]
      ∧ (Run c6App c6Evs).map Prod.fst = some none := by
  decide

/-- C6 amended: if the first error recorded by the fail-fast join is a
real failure `E` (no task — in particular not the signal watcher
reporting `context.Canceled` — completed with an error before `E`), then
the group context is cancelled, every server's start- and stop-task
completes (so every other server's stop operation is invoked) before
`Run` returns, and `Run`'s returned error equals `E`; later failures are
discarded. -/
theorem run_first_recorded_failure_wins (a : App) (evs : List Ev)
    (res : Option GoError) (s : ExecState) (e : GoError)
    (hrun : Run a evs = some (res, s))
    (hfe : s.firstErr = some e) (hne : e ≠ GoError.canceled) :
    res = some e ∧ s.gcanceled = true
      ∧ s.started.all (fun b => b) = true
      ∧ s.stopped.all (fun b => b) = true
      ∧ s.watcherDone = true := by
  rcases Run_inv hrun with ⟨r, e2, hr, hg, hres, hs⟩ | ⟨hx, ht, hres⟩
  · subst hs
    exact absurd hfe (by simp [initState])
  · have hgc : s.gcanceled = true := by
      rcases execSteps_errInv hx (Or.inl rfl) with h1 | h1
      · rw [hfe] at h1
        exact absurd h1 (by simp)
      · exact h1
    have ht2 := ht
    simp only [terminal, Bool.and_eq_true] at ht2
    refine ⟨?_, hgc, ht2.1.1, ht2.1.2, ht2.2⟩
    rw [hres, hfe]
    simp [waitFilter, hne]

/-- A concrete `App` whose server fails immediately on start. -/
def c6wApp : App :=
  { opts :=
      { id := "id-6w"
        name := "svc6w"
        version := "v6w"
        metadata := []
        endpoints := []
        servers := [{ startResult := some (GoError.err "start boom"), stopResult := none, endpointRes := none }]
        registry := none
        sigs := defaultSigs }
    inst := { ID := "id-6w", Name := "svc6w", Version := "v6w", Metadata := [], Endpoints := [] }
    canceled := false }

/-- A schedule where the start failure is recorded first. -/
def c6wEvs : List Ev := [Ev.startFin 0, Ev.stopFin 0, Ev.wexit]

/-- The final state of that schedule. -/
def c6wFinal : ExecState :=
  { app := c6wApp
    started := [true]
    stopped := [true]
    gcanceled := true
    firstErr := some (GoError.err "start boom")
    watcherDone := true }

/-- Witness for the amended C6 at `c6wApp`. -/
theorem run_first_recorded_failure_wins_witness :
    (some (GoError.err "start boom") : Option GoError) = some (GoError.err "start boom")
      ∧ c6wFinal.gcanceled = true
      ∧ c6wFinal.started.all (fun b => b) = true
      ∧ c6wFinal.stopped.all (fun b => b) = true
      ∧ c6wFinal.watcherDone = true :=
  run_first_recorded_failure_wins c6wApp c6wEvs (some (GoError.err "start boom"))
    c6wFinal (GoError.err "start boom") (by decide) (by decide) (by decide)

/-! ## C7 -/

/-- C7: the `ServiceInstance` built at `New` time is never mutated:
`Stop` leaves it unchanged, and at the end of every completed `Run` the
`App` still carries the instance it started with (all of id, name,
version, metadata, endpoints included, since this is equality of the
whole record). -/
theorem run_stop_preserve_instance (a : App) :
    (Stop a).1.inst = a.inst
      ∧ ∀ evs res s, Run a evs = some (res, s) → s.app.inst = a.inst := by
  refine ⟨Stop_fst_inst a, ?_⟩
  intro evs res s hrun
  rcases Run_inv hrun with ⟨r, e, -, -, -, hs⟩ | ⟨hx, -, -⟩
  · subst hs
    rfl
  · exact execSteps_app_inst hx

/-- A concrete `App` with no servers and no registry. -/
def c7App : App :=
  { opts :=
      { id := "id-7"
        name := "svc7"
        version := "v7"
        metadata := [("zone", "eu-1")]
        endpoints := ["http://svc7:80"]
        servers := []
        registry := none
        sigs := defaultSigs }
    inst := { ID := "id-7", Name := "svc7", Version := "v7", Metadata := [("zone", "eu-1")], Endpoints := ["http://svc7:80"] }
    canceled := false }

/-- A graceful schedule for `c7App`. -/
def c7Evs : List Ev := [Ev.sig, Ev.wexit]

/-- The final state of that schedule. -/
def c7Final : ExecState :=
  { app := { c7App with canceled := true }
    started := []
    stopped := []
    gcanceled := true
    firstErr := some GoError.canceled
    watcherDone := true }

/-- Witness for C7 at `c7App`: both after `Stop` and after a completed
`Run` the instance is the constructed one. -/
theorem run_stop_preserve_instance_witness :
    (Stop c7App).1.inst = c7App.inst ∧ c7Final.app.inst = c7App.inst :=
  ⟨(run_stop_preserve_instance c7App).1,
   (run_stop_preserve_instance c7App).2 c7Evs none c7Final (by decide)⟩
